import Mathlib

/-!
Verification development for the Atlas command-orchestration pipeline:
intent resolution (`parse_intent`), plan construction (`create_plan`,
`optimize_plan`), the permission gate (`check_permission`,
`approve_request`, `deny_request`) and the executor (`execute_plan`,
`dry_run`).

The definitions below are a shallow embedding of the Python sources
`atlas_permissions.py`, `atlas_planner_agent.py`, `atlas_executor_agent.py`
and the permission flags of `atlas_config.py`.  Modelling conventions:

* Python `Dict[str, Any]` parameter dictionaries are insertion-ordered
  association lists (`Params`) of string keys and `PVal` values (the only
  value shapes the pipeline ever stores are strings and integers).
* Wall-clock data (`datetime.now()` timestamps, measured durations,
  `time.sleep`) is outside the embedding: timestamp fields are dropped and
  measured durations are abstracted as `0`.
* Logging calls (`logger`, `atlas_logger`) have no observable effect on the
  modelled state and are dropped.
* Disk persistence (`_save_pending_requests`, the audit-log file, the
  usage-stats table) is modelled by the in-memory lists that the code
  writes from: the pending queue, the audit list, and a usage-record list.
-/

namespace Atlas

/-- A Python value stored in a `params` dictionary: the planner and the
permission gate only ever store strings and integers there. -/
inductive PVal
  | s (v : String)
  | i (v : Int)
  deriving DecidableEq, Repr

/-- An insertion-ordered Python dictionary `Dict[str, Any]`. -/
abbrev Params := List (String × PVal)

/-- `d.get(k, default)` on a Python dictionary. -/
def Params.get (p : Params) (k : String) (d : PVal) : PVal :=
  match p.find? (fun kv => kv.1 == k) with
  | some kv => kv.2
  | none => d

/-- Python `str(v)` for a `PVal`. -/
def pvalText : PVal → String
  | .s v => v
  | .i n => toString n

/-- A single-quote character, built numerically. -/
def sq : String := String.singleton (Char.ofNat 39)

/-- Python `repr(v)` for a `PVal` (strings without quote characters). -/
def pvalRepr : PVal → String
  | .s v => sq ++ v ++ sq
  | .i n => toString n

/-- Python `str(params)` for a params dictionary, as used by
`optimize_plan`'s deduplication key. -/
def paramsStr (p : Params) : String :=
  "\x7b" ++ String.intercalate ", "
    (p.map fun kv => sq ++ kv.1 ++ sq ++ ": " ++ pvalRepr kv.2) ++ "\x7d"

/-! ## Permission gate (`atlas_permissions.py`) -/

/-- `PermissionType` enum. -/
inductive PermissionType
  | FILES
  | KEYBOARD_MOUSE
  | SCREEN_CAPTURE
  | ANDROID
  | ENTERCHAT
  | NETWORK
  | AI_REMOTE
  deriving DecidableEq, Repr

/-- `PermissionType.value`. -/
def PermissionType.value : PermissionType → String
  | .FILES => "files"
  | .KEYBOARD_MOUSE => "keyboard_mouse"
  | .SCREEN_CAPTURE => "screen_capture"
  | .ANDROID => "android"
  | .ENTERCHAT => "enterchat"
  | .NETWORK => "network"
  | .AI_REMOTE => "ai_remote"

/-- `RiskLevel` enum. -/
inductive RiskLevel
  | LOW
  | MEDIUM
  | HIGH
  | CRITICAL
  deriving DecidableEq, Repr

/-- `RiskLevel.value`. -/
def RiskLevel.value : RiskLevel → String
  | .LOW => "low"
  | .MEDIUM => "medium"
  | .HIGH => "high"
  | .CRITICAL => "critical"

/-- `PermissionsConfig` from `atlas_config.py` (default values as in the
source dataclass). -/
structure PermissionsConfig where
  can_access_files : Bool := false
  can_control_keyboard_mouse : Bool := false
  can_capture_screen : Bool := false
  can_control_android : Bool := false
  can_control_enterchat : Bool := false
  can_use_network : Bool := false
  can_use_ai_remote : Bool := false
  ask_every_time_files : Bool := true
  ask_every_time_keyboard : Bool := true
  ask_every_time_screen : Bool := true
  ask_every_time_android : Bool := true
  ask_every_time_enterchat : Bool := true
  deriving DecidableEq, Repr

/-- A `PermissionRequest` (its `datetime.now()` timestamp is wall-clock
data and is dropped from the embedding). -/
structure PermissionRequest where
  permission_type : PermissionType
  action : String
  description : String
  risk_level : RiskLevel
  params : Params
  deriving DecidableEq, Repr

/-- An `AuditLogEntry` (timestamp dropped, as above). -/
structure AuditLogEntry where
  action : String
  permission_type : String
  risk_level : String
  status : String
  details : Params
  agent : String
  deriving DecidableEq, Repr

/-- The mutable state owned by the `PermissionManager`: the pending-request
queue and the append-only audit log. -/
structure GateState where
  pending : List PermissionRequest
  audit : List AuditLogEntry
  deriving DecidableEq, Repr

/-- The `permission_map` dictionary of `check_permission`, as a total
lookup: the source dictionary contains every `PermissionType` member, so
the `.get(permission_type, False)` default is never used for enablement. -/
def permission_map (cfg : PermissionsConfig) : PermissionType → Bool
  | .FILES => cfg.can_access_files
  | .KEYBOARD_MOUSE => cfg.can_control_keyboard_mouse
  | .SCREEN_CAPTURE => cfg.can_capture_screen
  | .ANDROID => cfg.can_control_android
  | .ENTERCHAT => cfg.can_control_enterchat
  | .NETWORK => cfg.can_use_network
  | .AI_REMOTE => cfg.can_use_ai_remote

/-- The `ask_every_time_map` dictionary of `check_permission`: it has no
entry for `NETWORK` or `AI_REMOTE`, so `.get(permission_type, False)`
yields `False` for those two categories. -/
def ask_every_time_map (cfg : PermissionsConfig) : PermissionType → Bool
  | .FILES => cfg.ask_every_time_files
  | .KEYBOARD_MOUSE => cfg.ask_every_time_keyboard
  | .SCREEN_CAPTURE => cfg.ask_every_time_screen
  | .ANDROID => cfg.ask_every_time_android
  | .ENTERCHAT => cfg.ask_every_time_enterchat
  | .NETWORK => false
  | .AI_REMOTE => false

/-- `PermissionManager._get_action_description`. -/
def get_action_description (action : String) (params : Params) : String :=
  if action = "delete_file" then
    "Delete file: " ++ pvalText (Params.get params "path" (.s "unknown"))
  else if action = "create_file" then
    "Create file: " ++ pvalText (Params.get params "path" (.s "unknown"))
  else if action = "execute_command" then
    "Execute: " ++ pvalText (Params.get params "command" (.s "unknown"))
  else if action = "take_screenshot" then
    "Capture screen screenshot"
  else if action = "control_mouse" then
    "Control mouse movements"
  else if action = "control_keyboard" then
    "Type text: " ++ pvalText (Params.get params "text" (.s "unknown"))
  else if action = "adb_command" then
    "Android command: " ++ pvalText (Params.get params "command" (.s "unknown"))
  else if action = "send_message" then
    "Send message via EnterChat to " ++ pvalText (Params.get params "recipient" (.s "unknown"))
  else if action = "network_request" then
    "Make network request to " ++ pvalText (Params.get params "url" (.s "unknown"))
  else
    "Action: " ++ action

/-- `PermissionManager.check_permission`.  Returns the `(is_granted,
reason_if_denied)` pair together with the updated gate state. -/
def check_permission (cfg : PermissionsConfig) (permission_type : PermissionType)
    (action : String) (risk_level : RiskLevel) (params : Params)
    (st : GateState) : (Bool × Option String) × GateState :=
  if permission_map cfg permission_type = false then
    let reason := "Permission " ++ permission_type.value ++ " is disabled. Enable it in Settings."
    ((false, some reason),
     { st with audit := st.audit ++
        [⟨action, permission_type.value, risk_level.value, "denied",
          [("reason", .s reason)], "system"⟩] })
  else if ask_every_time_map cfg permission_type then
    ((false, some "User confirmation required. Check pending requests."),
     { st with pending := st.pending ++
        [⟨permission_type, action, get_action_description action params,
          risk_level, params⟩] })
  else
    ((true, none),
     { st with audit := st.audit ++
        [⟨action, permission_type.value, risk_level.value, "granted",
          params, "system"⟩] })

/-- `PermissionManager.approve_request`.  The index is a Python `int`
(possibly negative); the guard `0 <= request_index < len(pending)` makes
`pop` total, so the surrounding `try/except` never fires. -/
def approve_request (st : GateState) (request_index : Int) :
    Bool × GateState :=
  if h : 0 ≤ request_index ∧ request_index < (st.pending.length : Int) then
    let r := st.pending.get ⟨request_index.toNat, by omega⟩
    (true,
     { pending := st.pending.eraseIdx request_index.toNat,
       audit := st.audit ++
        [⟨r.action, r.permission_type.value, r.risk_level.value,
          "approved", r.params, "user"⟩] })
  else
    (false, st)

/-- `PermissionManager.deny_request`. -/
def deny_request (st : GateState) (request_index : Int) :
    Bool × GateState :=
  if h : 0 ≤ request_index ∧ request_index < (st.pending.length : Int) then
    let r := st.pending.get ⟨request_index.toNat, by omega⟩
    (true,
     { pending := st.pending.eraseIdx request_index.toNat,
       audit := st.audit ++
        [⟨r.action, r.permission_type.value, r.risk_level.value,
          "denied_by_user", r.params, "user"⟩] })
  else
    (false, st)

/-! ## Planner (`atlas_planner_agent.py`)

Every pattern in `_load_intent_patterns` has the shape
`(x1|…|xm).*(y1|…|yn)` where the `xi`, `yj` are non-empty literal strings,
so `re.search` is embedded as: some suffix of the haystack starts with some
`xi` and, after it, contains some `yj`.  `str.lower` is embedded over the
ASCII range (`Char.toLower`); the pattern literals are lower-case ASCII or
caseless Devanagari, so case only matters on that range. -/

/-- Python `str.lower`, modelled on the ASCII range (identity elsewhere). -/
def pyLower (s : String) : String := String.mk (s.data.map Char.toLower)

/-- `needle` occurs as a contiguous subsequence of `hay`
(Python `needle in hay`). -/
def containsSeq (needle : List Char) : List Char → Bool
  | [] => needle.isEmpty
  | l@(_ :: t) => needle.isPrefixOf l || containsSeq needle t

/-- Python `needle in hay` on strings. -/
def containsStr (needle hay : String) : Bool := containsSeq needle.data hay.data

/-- Some suffix of the list (including the empty one) satisfies `p`:
quantification over all start positions of a regex search. -/
def anySuffix (p : List Char → Bool) : List Char → Bool
  | [] => p []
  | l@(_ :: t) => p l || anySuffix p t

/-- `re.search(r"(x1|…|xm).*(y1|…|yn)", hay)` succeeds: at some position
an alternative `x` matches and some alternative `y` occurs after it. -/
def matchAB (xs ys : List String) (hay : List Char) : Bool :=
  anySuffix
    (fun suf => xs.any fun x =>
      x.data.isPrefixOf suf && ys.any fun y => containsSeq y.data (suf.drop x.length))
    hay

/-- One `(pattern, confidence)` candidate: the pattern is the pair of
alternation lists of its `(…).*(…)` shape. -/
abbrev IntentPattern := (List String × List String) × ℚ

/-- `PlannerAgent._load_intent_patterns`, in source (insertion) order. -/
def intent_patterns : List (String × List IntentPattern) := [
  ("create_file",
    [((["file", "फ़ाइल"], ["banao", "create", "बनाओ"]), mkRat 9 10),
     ((["naya", "नया"], ["file", "फ़ाइल"]), mkRat 85 100)]),
  ("delete_file",
    [((["file", "फ़ाइल"], ["delete", "हटा", "मिटा"]), mkRat 9 10),
     ((["remove", "हटाओ"], ["file", "फ़ाइल"]), mkRat 85 100)]),
  ("organize_desktop",
    [((["desktop", "डेस्कटॉप"], ["organize", "साफ", "clean"]), mkRat 9 10),
     ((["desktop", "डेस्कटॉप"], ["arrange", "व्यवस्थित"]), mkRat 85 100)]),
  ("open_app",
    [((["open", "खोल"], ["app", "application", "एप"]), mkRat 9 10),
     ((["start", "चला", "run"], ["notepad", "calculator", "chrome"]), mkRat 85 100)]),
  ("close_app",
    [((["close", "बंद", "band"], ["app", "application"]), mkRat 9 10)]),
  ("screenshot",
    [((["screenshot", "स्क्रीनशॉट"], ["le", "ले", "take"]), mkRat 9 10),
     ((["screen", "स्क्रीन"], ["capture", "पकड़"]), mkRat 85 100)]),
  ("volume_control",
    [((["volume", "आवाज़"], ["up", "down", "mute", "बढ़ा", "घटा"]), mkRat 9 10)]),
  ("shutdown",
    [((["shutdown", "बंद करो", "band karo"], ["computer", "pc"]), mkRat 95 100),
     ((["computer", "pc", "system"], ["off", "बंद"]), mkRat 9 10)]),
  ("unlock_phone",
    [((["phone", "फोन"], ["unlock", "खोल"]), mkRat 9 10),
     ((["unlock", "अनलॉक"], ["phone", "फोन"]), mkRat 9 10)]),
  ("open_android_app",
    [((["phone", "फोन"], ["whatsapp", "telegram", "youtube"]), mkRat 9 10),
     ((["android", "एंड्रॉइड"], ["open", "खोल"]), mkRat 85 100)]),
  ("android_screenshot",
    [((["phone", "फोन"], ["screenshot", "स्क्रीनशॉट"]), mkRat 9 10)]),
  ("send_whatsapp",
    [((["whatsapp", "व्हाट्सएप"], ["send", "भेज", "message"]), mkRat 9 10),
     ((["message", "संदेश"], ["whatsapp", "व्हाट्सएप"]), mkRat 85 100)]),
  ("send_telegram",
    [((["telegram", "टेलीग्राम"], ["send", "भेज", "message"]), mkRat 9 10)]),
  ("check_messages",
    [((["check", "देख"], ["messages", "संदेश"]), mkRat 85 100),
     ((["unread", "नए"], ["messages", "संदेश"]), mkRat 85 100)]),
  ("morning_routine",
    [((["morning", "सुबह"], ["routine", "दिनचर्या"]), mkRat 9 10)]),
  ("backup_workflow",
    [((["backup", "बैकअप"], ["create", "बना", "take"]), mkRat 9 10)]),
  ("create_app",
    [((["app", "एप"], ["banao", "create", "बनाओ"]), mkRat 85 100),
     ((["todo", "calculator", "notes"], ["app", "एप"]), mkRat 9 10)]),
  ("system_info",
    [((["system", "सिस्टम"], ["info", "जानकारी"]), mkRat 9 10),
     ((["computer", "कंप्यूटर"], ["status", "स्थिति"]), mkRat 85 100)])]

/-- The entity dictionary built by `_extract_entities`: an absent key is
`none`. -/
structure Entities where
  app_name : Option String := none
  path : Option String := none
  contact_name : Option String := none
  message_text : Option String := none
  numbers : Option (List String) := none
  deriving DecidableEq, Repr

/-- Python `\s` (ASCII whitespace range of `str.strip` / `\s`). -/
def isPySpace (c : Char) : Bool :=
  c = ' ' || c = '\t' || c = '\n' || c = '\r' || c = '\x0b' || c = '\x0c'

/-- `[A-Za-z\s]` character class. -/
def isAlphaSpace (c : Char) : Bool :=
  ('a' ≤ c && c ≤ 'z') || ('A' ≤ c && c ≤ 'Z') || isPySpace c

/-- A double or single quote, the `["\']` class. -/
def isQuote (c : Char) : Bool := c = '"' || c = Char.ofNat 39

/-- Python `str.strip()` (ASCII whitespace model). -/
def pyStrip (l : List Char) : List Char :=
  ((l.dropWhile isPySpace).reverse.dropWhile isPySpace).reverse

/-- `re.search(r'["\']([^"\']+)["\']', command)`: the leftmost quote that
is followed by a non-empty run of non-quote characters and a closing
quote; the captured group is that run. -/
def extract_quoted : List Char → Option String
  | [] => none
  | c :: t =>
    if isQuote c then
      let run := t.takeWhile (fun ch => !isQuote ch)
      if run.isEmpty then extract_quoted t
      else
        match t.drop run.length with
        | [] => extract_quoted t
        | _ :: _ => some (String.mk run)
    else extract_quoted t

/-- `re.search(r'(?:to|ko|को)\s+([A-Za-z\s]+)', command, re.IGNORECASE)`,
followed by `.group(1).strip()`.  The alternatives start with distinct
characters, so trying them via `find?` matches the engine's left-to-right
alternation.  When the class run after the maximal whitespace run is
empty, the engine backtracks `\s+` and captures a lone whitespace
character, which `strip` reduces to the empty string — possible only when
the whitespace run has length at least two. -/
def contact_capture (alts : List String) : List Char → Option String
  | [] => none
  | l@(_ :: t) =>
    match alts.find? (fun a => a.data.isPrefixOf (l.map Char.toLower)) with
    | some a =>
      let rest := l.drop a.length
      let w := rest.takeWhile isPySpace
      if w.isEmpty then contact_capture alts t
      else
        let c := (rest.drop w.length).takeWhile isAlphaSpace
        if !c.isEmpty then some (String.mk (pyStrip c))
        else if 2 ≤ w.length then some ""
        else contact_capture alts t
    | none => contact_capture alts t

/-- `re.search(r'(?:bolo|भेज|send)\s+["\']?([^"\']+)["\']?', command,
re.IGNORECASE)`, followed by `.group(1).strip()`.  Same backtracking
discipline as `contact_capture`, with an optional opening quote consumed
when present. -/
def message_capture (alts : List String) : List Char → Option String
  | [] => none
  | l@(_ :: t) =>
    match alts.find? (fun a => a.data.isPrefixOf (l.map Char.toLower)) with
    | some a =>
      let rest := l.drop a.length
      let w := rest.takeWhile isPySpace
      if w.isEmpty then message_capture alts t
      else
        let afterW := rest.drop w.length
        let afterQ := if isQuote (afterW.headD (Char.ofNat 0)) then afterW.drop 1 else afterW
        let c := afterQ.takeWhile (fun ch => !isQuote ch)
        if !c.isEmpty then some (String.mk (pyStrip c))
        else if 2 ≤ w.length then some ""
        else message_capture alts t
    | none => message_capture alts t

/-- `re.findall(r'\d+', command)`: maximal digit runs, left to right
(`cur` accumulates the current run in reverse). -/
def digitRunsAux (cur : List Char) : List Char → List String
  | [] => if cur.isEmpty then [] else [String.mk cur.reverse]
  | c :: t =>
    if c.isDigit then digitRunsAux (c :: cur) t
    else if cur.isEmpty then digitRunsAux [] t
    else String.mk cur.reverse :: digitRunsAux [] t

/-- `re.findall(r'\d+', command)`. -/
def digitRuns (l : List Char) : List String := digitRunsAux [] l

/-- The application-name list of `_extract_entities`. -/
def apps_list : List String :=
  ["notepad", "calculator", "chrome", "firefox", "word", "excel",
   "whatsapp", "telegram", "youtube", "camera"]

/-- `PlannerAgent._extract_entities`.  The app loop overwrites on each
containment hit, so the last contained app name wins. -/
def extract_entities (command : String) (intent : String) : Entities :=
  let command_lower := pyLower command
  let app_name := apps_list.foldl
    (fun acc app => if containsStr app command_lower then some app else acc) none
  let path := extract_quoted command.data
  let contact_name :=
    if containsStr "whatsapp" intent || containsStr "telegram" intent then
      contact_capture ["to", "ko", "को"] command.data
    else none
  let message_text :=
    if containsStr "send" intent || containsStr "message" intent then
      message_capture ["bolo", "भेज", "send"] command.data
    else none
  let ns := digitRuns command.data
  ⟨app_name, path, contact_name, message_text, if ns.isEmpty then none else some ns⟩

/-- `PlannerAgent.parse_intent`: fold over the pattern table keeping the
strictly best confidence (ties keep the earlier hit); entities are
recomputed at each improvement with the improving intent. -/
def parse_intent (command : String) : String × ℚ × Entities :=
  intent_patterns.foldl
    (fun best entry =>
      entry.2.foldl
        (fun best pc =>
          if matchAB pc.1.1 pc.1.2 (pyLower command).data && Rat.blt best.2.1 pc.2 then
            (entry.1, pc.2, extract_entities command entry.1)
          else best)
        best)
    ("unknown", 0, {})

/-- `PlanStep` dataclass. -/
structure PlanStep where
  tool : String
  action : String
  params : Params
  description : String
  deriving DecidableEq, Repr

/-- `ExecutionPlan` dataclass. -/
structure ExecutionPlan where
  intent : String
  steps : List PlanStep
  confidence : ℚ
  requires_confirmation : Bool := false
  deriving DecidableEq, Repr

/-- The `if/elif` chain of `create_plan` that builds the step list and the
confirmation flag from the parsed intent. -/
def build_steps (intent command : String) (entities : Entities) :
    List PlanStep × Bool :=
  if intent = "create_file" then
    let path := entities.path.getD "new_file.txt"
    ([⟨"file_actions", "create_file", [("path", .s path), ("content", .s "")],
       "Create file: " ++ path⟩], false)
  else if intent = "delete_file" then
    match entities.path with
    | some p =>
      ([⟨"file_actions", "delete_file", [("path", .s p)], "Delete file: " ++ p⟩], true)
    | none => ([], false)
  else if intent = "organize_desktop" then
    ([⟨"file_actions", "organize_desktop", [], "Organize desktop files into folders"⟩], false)
  else if intent = "open_app" then
    let app := entities.app_name.getD "notepad"
    ([⟨"pc_actions", "open_app", [("app_name", .s app)], "Open application: " ++ app⟩], false)
  else if intent = "close_app" then
    let app := entities.app_name.getD ""
    if app ≠ "" then
      ([⟨"pc_actions", "close_app", [("process_name", .s app)],
         "Close application: " ++ app⟩], false)
    else ([], false)
  else if intent = "screenshot" then
    ([⟨"pc_actions", "take_screenshot", [], "Take screenshot"⟩], false)
  else if intent = "volume_control" then
    let action_type :=
      if containsStr "up" (pyLower command) || containsStr "बढ़ा" command then "up"
      else if containsStr "down" (pyLower command) || containsStr "घटा" command then "down"
      else "mute"
    ([⟨"pc_actions", "control_volume", [("action", .s action_type)],
       "Volume " ++ action_type⟩], false)
  else if intent = "shutdown" then
    ([⟨"pc_actions", "shutdown_system", [("mode", .s "shutdown"), ("delay", .i 60)],
       "Shutdown system in 60 seconds"⟩], true)
  else if intent = "unlock_phone" then
    ([⟨"android_bridge", "unlock_phone", [], "Unlock Android phone"⟩], false)
  else if intent = "open_android_app" then
    let app := entities.app_name.getD "whatsapp"
    ([⟨"android_bridge", "open_app", [("package_name", .s app)],
       "Open " ++ app ++ " on Android"⟩], false)
  else if intent = "android_screenshot" then
    ([⟨"android_bridge", "take_screenshot", [], "Take Android screenshot"⟩], false)
  else if intent = "send_whatsapp" then
    let contact := entities.contact_name.getD ""
    let message := entities.message_text.getD ""
    if contact ≠ "" ∧ message ≠ "" then
      ([⟨"enterchat_connector", "send_whatsapp_message",
         [("contact_name", .s contact), ("message", .s message)],
         "Send WhatsApp to " ++ contact⟩], false)
    else ([], false)
  else if intent = "send_telegram" then
    let chat := entities.contact_name.getD ""
    let message := entities.message_text.getD ""
    if chat ≠ "" ∧ message ≠ "" then
      ([⟨"enterchat_connector", "send_telegram_message",
         [("chat_name", .s chat), ("message", .s message)],
         "Send Telegram to " ++ chat⟩], false)
    else ([], false)
  else if intent = "check_messages" then
    ([⟨"enterchat_connector", "get_unread_count", [], "Check unread messages"⟩], false)
  else if intent = "system_info" then
    ([⟨"pc_actions", "get_system_info", [], "Get system information"⟩], false)
  else if intent = "morning_routine" then
    ([⟨"workflow_engine", "execute_workflow", [("workflow_name", .s "morning_routine")],
       "Execute morning routine workflow"⟩], false)
  else if intent = "backup_workflow" then
    ([⟨"workflow_engine", "execute_workflow", [("workflow_name", .s "backup_workflow")],
       "Execute backup workflow"⟩], false)
  else if intent = "create_app" then
    let app_type :=
      if containsStr "calculator" (pyLower command) then "calculator"
      else if containsStr "notes" (pyLower command) then "notes"
      else "todo"
    ([⟨"app_builder", "create_app", [("app_type", .s app_type)],
       "Create " ++ app_type ++ " application"⟩], false)
  else ([], false)

/-- The synthetic fallback step appended when no steps were built. -/
def unknown_step (command : String) : PlanStep :=
  ⟨"unknown", "unknown", [("command", .s command)], "Unknown command: " ++ command⟩

/-- `PlannerAgent.create_plan`. -/
def create_plan (command : String) : ExecutionPlan :=
  let r := parse_intent command
  let sb := build_steps r.1 command r.2.2
  let steps := if sb.1.isEmpty then [unknown_step command] else sb.1
  ⟨r.1, steps, r.2.1, sb.2⟩

/-- The deduplication key `f"{step.tool}.{step.action}.{str(step.params)}"`
of `optimize_plan`. -/
def step_key (step : PlanStep) : String :=
  step.tool ++ "." ++ step.action ++ "." ++ paramsStr step.params

/-- The dedup loop of `optimize_plan`, with the `seen` set as a list used
only through membership. -/
def optimize_steps (seen : List String) : List PlanStep → List PlanStep
  | [] => []
  | step :: rest =>
    if seen.contains (step_key step) then optimize_steps seen rest
    else step :: optimize_steps (step_key step :: seen) rest

/-- `PlannerAgent.optimize_plan`. -/
def optimize_plan (plan : ExecutionPlan) : ExecutionPlan :=
  { plan with steps := optimize_steps [] plan.steps }

/-- Spec-side statement of deduplication: an occurrence is dropped exactly
when an earlier step has the same deduplication key; first occurrences
survive at their original relative positions. -/
def keepFirstOccs : List PlanStep → List PlanStep
  | [] => []
  | s :: rest => s :: keepFirstOccs (rest.filter fun t => step_key t != step_key s)
termination_by l => l.length
decreasing_by
  simp only [List.length_cons]
  exact Nat.lt_succ_of_le (List.length_filter_le _ _)

/-! ## Executor (`atlas_executor_agent.py`)

The tool map sends a tool name to an optional tool object (absent key and
a `None` placeholder value both yield `None` from `tool_map.get`); a tool
object sends an action name to an optional handler (`hasattr`); a handler
either returns a result dictionary — abstracted to its `success` flag and
`message`, with a missing `success` key being the `result.get("success",
False)` default — or raises, which `_execute_step` catches.  `atlas_logger`
calls and `time.sleep` are dropped; measured durations are `0`. -/

/-- A handler's result dictionary, abstracted to the fields the executor
reads. -/
structure ActionResult where
  success : Bool
  message : String
  deriving DecidableEq, Repr

/-- The executor's environment: `self.tool_map` together with each tool's
action attributes.  A handler returns a result or raises (`Except`). -/
structure ExecEnv where
  toolMap : String → Option (String → Option (Params → Except String ActionResult))

/-- One entry of the `step_results` list built by `execute_plan`
(`duration_ms` is measured wall-clock time, abstracted to `0`; the raw
`result` dict is abstracted to `success`/`message`). -/
structure StepResult where
  step_number : Nat
  description : String
  tool : String
  action : String
  success : Bool
  message : String
  duration_ms : Nat := 0
  deriving DecidableEq, Repr

/-- `ExecutionResult` dataclass. -/
structure ExecutionResult where
  success : Bool
  plan : ExecutionPlan
  step_results : List StepResult
  total_duration_ms : Nat
  message : String
  deriving DecidableEq, Repr

/-- One row of the `usage_stats` store written by
`memory_agent.log_usage` (timestamp dropped; the metadata dictionary
carries the single key `steps`). -/
structure UsageRecord where
  command : String
  agent : String
  success : Bool
  duration_ms : Nat
  steps : Nat
  deriving DecidableEq, Repr

/-- `ExecutorAgent._execute_step`. -/
def execute_step (env : ExecEnv) (step : PlanStep) : ActionResult :=
  match env.toolMap step.tool with
  | none => ⟨false, "Tool not found: " ++ step.tool⟩
  | some tool =>
    match tool step.action with
    | none => ⟨false, "Action not found: " ++ step.action ++ " in " ++ step.tool⟩
    | some handler =>
      match handler step.params with
      | .ok r => r
      | .error e => ⟨false, "Execution error: " ++ e⟩

/-- `ExecutorAgent._is_critical_step`. -/
def is_critical_step (step : PlanStep) : Bool :=
  ["delete_file", "delete_folder", "shutdown_system", "reboot"].contains step.action

/-- The step loop of `execute_plan`: returns the `step_results` list and
the `overall_success` flag.  `idx` is the zero-based index of the first
remaining step (the recorded `step_number` is `idx + 1`).  A step's result
is appended before the failure check; a failed critical step breaks the
loop. -/
def run_steps (env : ExecEnv) (idx : Nat) : List PlanStep → List StepResult × Bool
  | [] => ([], true)
  | step :: rest =>
    let r := execute_step env step
    let sr : StepResult :=
      ⟨idx + 1, step.description, step.tool, step.action, r.success, r.message, 0⟩
    if r.success then
      let rec_ := run_steps env (idx + 1) rest
      (sr :: rec_.1, rec_.2)
    else if is_critical_step step then
      ([sr], false)
    else
      (sr :: (run_steps env (idx + 1) rest).1, false)

/-- `ExecutorAgent.execute_plan`: the execution result paired with the
usage-record store after the single `memory_agent.log_usage` append. -/
def execute_plan (env : ExecEnv) (plan : ExecutionPlan)
    (usage : List UsageRecord) : ExecutionResult × List UsageRecord :=
  let rb := run_steps env 0 plan.steps
  let message :=
    if rb.2 then
      "Successfully executed " ++ toString rb.1.length ++ " steps"
    else
      "Execution completed with " ++
        toString (rb.1.countP (fun r => !r.success)) ++ " failures"
  (⟨rb.2, plan, rb.1, 0, message⟩,
   usage ++ [⟨plan.intent, "ExecutorAgent", rb.2, 0, rb.1.length⟩])

/-- One entry of the `steps_summary` list built by `dry_run`. -/
structure DryStep where
  step_number : Nat
  description : String
  tool : String
  action : String
  params : Params
  estimated_duration : String
  deriving DecidableEq, Repr

/-- The dictionary returned by `dry_run`. -/
structure DrySummary where
  success : Bool
  mode : String
  total_steps : Nat
  steps : List DryStep
  requires_confirmation : Bool
  estimated_total_duration : String
  deriving DecidableEq, Repr

/-- `ExecutorAgent.dry_run`, threaded through the shared mutable state it
could touch — the executor environment, the permission-gate state and the
usage store — so that its frame can be stated: the source builds the
summary from the plan alone and returns the rest untouched. -/
def dry_run (env : ExecEnv) (plan : ExecutionPlan) (st : GateState)
    (usage : List UsageRecord) :
    DrySummary × GateState × List UsageRecord :=
  let _ := env
  (⟨true, "dry_run", plan.steps.length,
    plan.steps.mapIdx (fun i step =>
      ⟨i + 1, step.description, step.tool, step.action, step.params, "~500ms"⟩),
    plan.requires_confirmation,
    "~" ++ toString (plan.steps.length * 500) ++ "ms"⟩,
   st, usage)

/-! ## Concrete fixtures used by witnesses and counterexamples -/

/-- The default configuration: every category disabled, every
"ask every time" flag set. -/
def cfg_default : PermissionsConfig := {}

/-- A configuration with only the network category enabled. -/
def cfg_network : PermissionsConfig := { can_use_network := true }

/-- The empty gate state. -/
def st0 : GateState := ⟨[], []⟩

/-- A sample pending request. -/
def req_a : PermissionRequest :=
  ⟨.FILES, "delete_file", "Delete file: x", .HIGH, [("path", .s "x")]⟩

/-- A second sample pending request. -/
def req_b : PermissionRequest := ⟨.ANDROID, "adb_command", "Android command: ls", .MEDIUM, []⟩

/-- A gate state with two pending requests. -/
def st_two : GateState := ⟨[req_a, req_b], []⟩

/-- An executor environment with no registered tools: every step fails
with a tool-not-found result. -/
def env_empty : ExecEnv := ⟨fun _ => none⟩

/-- A one-step plan whose only step uses the critical action
`delete_file`. -/
def plan_one_critical : ExecutionPlan :=
  ⟨"demo", [⟨"file_actions", "delete_file", [], "Delete file: x"⟩], 0, true⟩

/-- First of two steps with distinct `(tool, action, params)` triples but
the same deduplication key `"a.b.c.\x7b\x7d"`. -/
def step_dup_a : PlanStep := ⟨"a", "b.c", [], "first"⟩

/-- Second of the colliding pair: its triple differs from
`step_dup_a`'s, but the joined key string coincides. -/
def step_dup_b : PlanStep := ⟨"a.b", "c", [], "second"⟩

/-- A plan holding the two colliding steps. -/
def plan_dup : ExecutionPlan := ⟨"i", [step_dup_a, step_dup_b], 0, false⟩

/-! ## Helper lemmas -/

lemma eraseIdx_append_length {α : Type _} :
    ∀ (pre : List α) (r : α) (post : List α),
      (pre ++ r :: post).eraseIdx pre.length = pre ++ post
  | [], _, _ => by simp
  | a :: pre, r, post => by
      simpa [List.eraseIdx_cons_succ] using eraseIdx_append_length pre r post

lemma get_append_length {α : Type _} :
    ∀ (pre : List α) (r : α) (post : List α)
      (h : pre.length < (pre ++ r :: post).length),
      (pre ++ r :: post).get ⟨pre.length, h⟩ = r
  | [], _, _, _ => rfl
  | a :: pre, r, post, _ =>
      get_append_length pre r post (by simp)

lemma foldl_id_of_mem {α β : Type _} (g : β → α → β) (l : List α) (b : β)
    (h : ∀ x ∈ l, ∀ acc, g acc x = acc) : l.foldl g b = b := by
  induction l generalizing b with
  | nil => rfl
  | cons x t ih =>
      rw [List.foldl_cons, h x (List.mem_cons_self x t) b]
      exact ih b (fun y hy => h y (List.mem_cons_of_mem x hy))

lemma parse_intent_of_no_match (command : String)
    (h : ∀ entry ∈ intent_patterns, ∀ pc ∈ entry.2,
        matchAB pc.1.1 pc.1.2 (pyLower command).data = false) :
    parse_intent command = ("unknown", 0, {}) := by
  unfold parse_intent
  apply foldl_id_of_mem
  intro entry hentry acc
  apply foldl_id_of_mem
  intro pc hpc acc2
  rw [if_neg]
  simp [h entry hentry pc hpc]


lemma build_steps_unknown (command : String) (entities : Entities) :
    build_steps "unknown" command entities = ([], false) := rfl

lemma keepFirstOccs_nil : keepFirstOccs [] = [] := by
  rw [keepFirstOccs.eq_def]

lemma keepFirstOccs_cons (s : PlanStep) (rest : List PlanStep) :
    keepFirstOccs (s :: rest) =
      s :: keepFirstOccs (rest.filter fun t => step_key t != step_key s) := by
  rw [keepFirstOccs.eq_def]

lemma optimize_steps_eq_keepFirstOccs :
    ∀ (l : List PlanStep) (seen : List String),
      optimize_steps seen l =
        keepFirstOccs (l.filter fun t => !(seen.contains (step_key t)))
  | [], seen => by simp [optimize_steps, keepFirstOccs_nil]
  | s :: rest, seen => by
      by_cases hs : seen.contains (step_key s)
      · rw [optimize_steps, if_pos hs, List.filter_cons,
            if_neg (by rw [hs]; simp)]
        exact optimize_steps_eq_keepFirstOccs rest seen
      · have hs' : seen.contains (step_key s) = false := by
          revert hs
          cases seen.contains (step_key s) <;> simp
        rw [optimize_steps, if_neg hs, List.filter_cons, if_pos (by rw [hs']; rfl),
            keepFirstOccs_cons]
        congr 1
        rw [optimize_steps_eq_keepFirstOccs rest (step_key s :: seen)]
        congr 1
        rw [List.filter_filter]
        apply List.filter_congr
        intro t _
        simp only [List.contains_cons, Bool.not_or, bne]

lemma keepFirstOccs_sublist (l : List PlanStep) : (keepFirstOccs l).Sublist l := by
  induction l using keepFirstOccs.induct with
  | case1 => simp [keepFirstOccs_nil]
  | case2 s rest ih =>
      rw [keepFirstOccs_cons]
      exact List.Sublist.cons₂ s (ih.trans (List.filter_sublist rest))

lemma keepFirstOccs_subset {l : List PlanStep} :
    ∀ x ∈ keepFirstOccs l, x ∈ l :=
  fun _ hx => (keepFirstOccs_sublist l).subset hx

lemma keepFirstOccs_pairwise (l : List PlanStep) :
    (keepFirstOccs l).Pairwise (fun a b => step_key a ≠ step_key b) := by
  induction l using keepFirstOccs.induct with
  | case1 => simp [keepFirstOccs_nil]
  | case2 s rest ih =>
      rw [keepFirstOccs_cons]
      refine List.Pairwise.cons ?_ ih
      intro b hb
      have hbf := keepFirstOccs_subset b hb
      have hkey := (List.mem_filter.mp hbf).2
      simp only [bne_iff_ne, ne_eq] at hkey
      exact fun hcontra => hkey hcontra.symm

lemma keepFirstOccs_represents :
    ∀ (l : List PlanStep), ∀ s ∈ l,
      ∃ t ∈ keepFirstOccs l, step_key t = step_key s := by
  intro l
  induction l using keepFirstOccs.induct with
  | case1 => simp
  | case2 s rest ih =>
      intro x hx
      rw [keepFirstOccs_cons]
      rcases List.mem_cons.mp hx with h | h
      · exact ⟨s, List.mem_cons_self s _, by rw [h]⟩
      · by_cases hk : step_key x = step_key s
        · exact ⟨s, List.mem_cons_self s _, hk.symm⟩
        · have hxf : x ∈ rest.filter (fun t => step_key t != step_key s) :=
            List.mem_filter.mpr ⟨h, by simp [bne_iff_ne, hk]⟩
          obtain ⟨t, ht, hkeq⟩ := ih x hxf
          exact ⟨t, List.mem_cons_of_mem _ ht, hkeq⟩

lemma run_steps_flag (env : ExecEnv) :
    ∀ (steps : List PlanStep) (idx : Nat),
      (run_steps env idx steps).2 =
        steps.all fun s => (execute_step env s).success
  | [], _ => rfl
  | step :: rest, idx => by
      rw [run_steps]
      by_cases h : (execute_step env step).success
      · simp [h, run_steps_flag env rest (idx + 1)]
      · have h' : (execute_step env step).success = false := by
          revert h
          cases (execute_step env step).success <;> simp
        by_cases hc : is_critical_step step
        · simp [h', hc]
        · have hc' : is_critical_step step = false := by
            revert hc
            cases is_critical_step step <;> simp
          simp [h', hc']

lemma run_steps_order (env : ExecEnv) :
    ∀ (steps : List PlanStep) (idx j : Nat),
      j < ((run_steps env idx steps).1).length →
      ((run_steps env idx steps).1)[j]?.map
          (fun sr => (sr.step_number, sr.tool, sr.action, sr.description))
        = steps[j]?.map (fun s => (idx + j + 1, s.tool, s.action, s.description))
  | [], idx, j, hj => by simp [run_steps] at hj
  | step :: rest, idx, j, hj => by
      rw [run_steps] at hj ⊢
      by_cases h : (execute_step env step).success
      · rw [if_pos h] at hj ⊢
        cases j with
        | zero => simp
        | succ j =>
            simp only [List.getElem?_cons_succ]
            have hj' : j < ((run_steps env (idx + 1) rest).1).length := by
              simpa using hj
            rw [run_steps_order env rest (idx + 1) j hj']
            cases hrest : rest[j]? with
            | none => simp
            | some s => simp [Prod.ext_iff]; omega
      · have h' : (execute_step env step).success = false := by
          revert h
          cases (execute_step env step).success <;> simp
        rw [if_neg (by simp [h'])] at hj ⊢
        by_cases hc : is_critical_step step
        · rw [if_pos hc] at hj ⊢
          cases j with
          | zero => simp
          | succ j => simp at hj
        · rw [if_neg hc] at hj ⊢
          cases j with
          | zero => simp
          | succ j =>
              simp only [List.getElem?_cons_succ]
              have hj' : j < ((run_steps env (idx + 1) rest).1).length := by
                simpa using hj
              rw [run_steps_order env rest (idx + 1) j hj']
              cases hrest : rest[j]? with
              | none => simp
              | some s => simp [Prod.ext_iff]; omega

lemma run_steps_critical_cut (env : ExecEnv) :
    ∀ (pre : List PlanStep) (s : PlanStep) (post : List PlanStep) (idx : Nat),
      (∀ t ∈ pre, ¬((execute_step env t).success = false ∧ is_critical_step t = true)) →
      (execute_step env s).success = false → is_critical_step s = true →
      ((run_steps env idx (pre ++ s :: post)).1).length = pre.length + 1
  | [], s, post, idx, _, hf, hc => by
      simp [run_steps, hf, hc]
  | t :: pre, s, post, idx, hpre, hf, hc => by
      rw [List.cons_append, run_steps]
      by_cases hsucc : (execute_step env t).success
      · rw [if_pos hsucc]
        simp only [List.length_cons]
        rw [run_steps_critical_cut env pre s post (idx + 1)
          (fun u hu => hpre u (List.mem_cons_of_mem t hu)) hf hc]
      · have hs' : (execute_step env t).success = false := by
          revert hsucc
          cases (execute_step env t).success <;> simp
        have hcrit : is_critical_step t = false := by
          cases hb : is_critical_step t
          · rfl
          · exact absurd ⟨hs', hb⟩ (hpre t (List.mem_cons_self t _))
        rw [if_neg (by simp [hs']), if_neg (by simp [hcrit])]
        simp only [List.length_cons]
        rw [run_steps_critical_cut env pre s post (idx + 1)
          (fun u hu => hpre u (List.mem_cons_of_mem t hu)) hf hc]

lemma run_steps_no_critical (env : ExecEnv) :
    ∀ (steps : List PlanStep) (idx : Nat),
      (∀ s ∈ steps, ¬((execute_step env s).success = false ∧ is_critical_step s = true)) →
      ((run_steps env idx steps).1).length = steps.length
  | [], _, _ => rfl
  | step :: rest, idx, h => by
      rw [run_steps]
      by_cases hsucc : (execute_step env step).success
      · rw [if_pos hsucc]
        simp only [List.length_cons]
        rw [run_steps_no_critical env rest (idx + 1)
          (fun u hu => h u (List.mem_cons_of_mem step hu))]
      · have hs' : (execute_step env step).success = false := by
          revert hsucc
          cases (execute_step env step).success <;> simp
        have hcrit : is_critical_step step = false := by
          cases hb : is_critical_step step
          · rfl
          · exact absurd ⟨hs', hb⟩ (h step (List.mem_cons_self step _))
        rw [if_neg (by simp [hs']), if_neg (by simp [hcrit])]
        simp only [List.length_cons]
        rw [run_steps_no_critical env rest (idx + 1)
          (fun u hu => h u (List.mem_cons_of_mem step hu))]

lemma run_steps_failure_flag (env : ExecEnv) :
    ∀ (steps : List PlanStep) (idx : Nat),
      (∃ sr ∈ (run_steps env idx steps).1, sr.success = false) →
      (run_steps env idx steps).2 = false
  | [], idx, hex => by
      simp [run_steps] at hex
  | step :: rest, idx, hex => by
      rw [run_steps] at hex ⊢
      by_cases h : (execute_step env step).success
      · rw [if_pos h] at hex ⊢
        apply run_steps_failure_flag env rest (idx + 1)
        rcases hex with ⟨sr, hmem, hfail⟩
        rcases List.mem_cons.mp hmem with heq | hmem'
        · rw [heq] at hfail
          simp at hfail
          rw [hfail] at h
          simp at h
        · exact ⟨sr, hmem', hfail⟩
      · rw [if_neg h]
        split <;> rfl

lemma keepFirstOccs_idem (l : List PlanStep) :
    keepFirstOccs (keepFirstOccs l) = keepFirstOccs l := by
  induction l using keepFirstOccs.induct with
  | case1 => simp [keepFirstOccs_nil]
  | case2 s rest ih =>
      simp only [keepFirstOccs_cons]
      congr 1
      have hself :
          (keepFirstOccs (rest.filter fun t => step_key t != step_key s)).filter
            (fun t => step_key t != step_key s) =
          keepFirstOccs (rest.filter fun t => step_key t != step_key s) := by
        apply List.filter_eq_self.mpr
        intro a ha
        exact (List.mem_filter.mp (keepFirstOccs_subset a ha)).2
      rw [hself, ih]

lemma optimize_steps_nil_seen (l : List PlanStep) :
    optimize_steps [] l = keepFirstOccs l := by
  rw [optimize_steps_eq_keepFirstOccs]
  congr 1
  exact List.filter_eq_self.mpr (fun a _ => rfl)

lemma optimize_plan_eq (p : ExecutionPlan) :
    optimize_plan p = ⟨p.intent, keepFirstOccs p.steps, p.confidence, p.requires_confirmation⟩ := by
  rw [optimize_plan, optimize_steps_nil_seen]

/-! ## Claim theorems -/

/-- C1: for every `check` call, a disabled category yields `(false, reason)`
and appends exactly one `denied` audit entry (regardless of the
"ask every time" flag, which the first branch never consults); an enabled
category with the "ask every time" flag set appends exactly one pending
request, returns `(false, confirmation-required reason)` and writes no
audit entry; otherwise the call returns `(true, none)` and appends exactly
one `granted` audit entry. -/
theorem gate_check_permission_spec (cfg : PermissionsConfig)
    (t : PermissionType) (action : String) (risk : RiskLevel)
    (params : Params) (st : GateState) :
    (permission_map cfg t = false →
      check_permission cfg t action risk params st =
        ((false, some ("Permission " ++ t.value ++ " is disabled. Enable it in Settings.")),
         { st with audit := st.audit ++
            [⟨action, t.value, risk.value, "denied",
              [("reason", .s ("Permission " ++ t.value ++ " is disabled. Enable it in Settings."))],
              "system"⟩] }))
    ∧ (permission_map cfg t = true → ask_every_time_map cfg t = true →
      check_permission cfg t action risk params st =
        ((false, some "User confirmation required. Check pending requests."),
         { st with pending := st.pending ++
            [⟨t, action, get_action_description action params, risk, params⟩] }))
    ∧ (permission_map cfg t = true → ask_every_time_map cfg t = false →
      check_permission cfg t action risk params st =
        ((true, none),
         { st with audit := st.audit ++
            [⟨action, t.value, risk.value, "granted", params, "system"⟩] })) := by
  refine ⟨?_, ?_, ?_⟩
  · intro h1
    rw [check_permission, if_pos h1]
  · intro h1 h2
    rw [check_permission, if_neg (by simp [h1]), if_pos h2]
  · intro h1 h2
    rw [check_permission, if_neg (by simp [h1]), if_neg (by simp [h2])]

/-- C1 witness: the default configuration has the files category disabled,
so a `check` on it is denied with one `denied` audit entry. -/
theorem gate_check_permission_spec_witness :
    check_permission cfg_default .FILES "delete_file" .HIGH [] st0 =
      ((false, some ("Permission " ++ PermissionType.FILES.value ++ " is disabled. Enable it in Settings.")),
       { st0 with audit := st0.audit ++
          [⟨"delete_file", PermissionType.FILES.value, RiskLevel.HIGH.value, "denied",
            [("reason", .s ("Permission " ++ PermissionType.FILES.value ++ " is disabled. Enable it in Settings."))],
            "system"⟩] }) :=
  (gate_check_permission_spec cfg_default .FILES "delete_file" .HIGH [] st0).1 rfl

/-- C3: `approve(i)` / `deny(i)` on a valid index `i` remove exactly the
entry at position `i` (later entries shift down by one), append exactly
one audit entry (`approved` / `denied_by_user`, agent `user`) and return
`true`; an out-of-range index returns `false` and leaves the state
unchanged. -/
theorem gate_approve_deny_spec (st : GateState) (i : Int) :
    (∀ pre r post, st.pending = pre ++ r :: post → i = (pre.length : Int) →
      approve_request st i =
        (true, ⟨pre ++ post, st.audit ++
          [⟨r.action, r.permission_type.value, r.risk_level.value,
            "approved", r.params, "user"⟩]⟩)
      ∧ deny_request st i =
        (true, ⟨pre ++ post, st.audit ++
          [⟨r.action, r.permission_type.value, r.risk_level.value,
            "denied_by_user", r.params, "user"⟩]⟩))
    ∧ ((i < 0 ∨ (st.pending.length : Int) ≤ i) →
      approve_request st i = (false, st) ∧ deny_request st i = (false, st)) := by
  obtain ⟨pending, audit⟩ := st
  constructor
  · intro pre r post hpend hidx
    dsimp only at hpend
    subst hpend
    subst hidx
    have hlen : pre.length < (pre ++ r :: post).length := by
      simp
    have hcond : (0 : Int) ≤ (pre.length : Int) ∧
        (pre.length : Int) < (((pre ++ r :: post).length : Nat) : Int) :=
      ⟨Int.natCast_nonneg _, by exact_mod_cast hlen⟩
    constructor
    · rw [approve_request, dif_pos hcond]
      simp only [Int.toNat_natCast]
      rw [eraseIdx_append_length, get_append_length]
    · rw [deny_request, dif_pos hcond]
      simp only [Int.toNat_natCast]
      rw [eraseIdx_append_length, get_append_length]
  · intro hout
    dsimp only at hout
    have hcond : ¬((0 : Int) ≤ i ∧ i < ((pending.length : Nat) : Int)) := by omega
    exact ⟨by rw [approve_request, dif_neg hcond], by rw [deny_request, dif_neg hcond]⟩

/-- C3 witness: approving or denying index `0` of a two-element queue pops
the first request and logs one audit entry; index `5` is a no-op returning
`false`. -/
theorem gate_approve_deny_spec_witness :
    (approve_request st_two 0 =
      (true, ⟨[req_b], st_two.audit ++
        [⟨req_a.action, req_a.permission_type.value, req_a.risk_level.value,
          "approved", req_a.params, "user"⟩]⟩)
     ∧ deny_request st_two 0 =
      (true, ⟨[req_b], st_two.audit ++
        [⟨req_a.action, req_a.permission_type.value, req_a.risk_level.value,
          "denied_by_user", req_a.params, "user"⟩]⟩))
    ∧ (approve_request st_two 5 = (false, st_two)
       ∧ deny_request st_two 5 = (false, st_two)) := by
  constructor
  · exact (gate_approve_deny_spec st_two 0).1 [] req_a [req_b] rfl rfl
  · exact (gate_approve_deny_spec st_two 5).2 (Or.inr (by norm_num [st_two, req_a, req_b]))

/-- C10: the `ask_every_time_map` dictionary has no entry for `NETWORK`
or `AI_REMOTE`, so whenever one of these two categories is enabled,
`check` grants immediately — it returns `(true, none)`, appends one
`granted` audit entry, and never creates a pending request. -/
theorem gate_network_airemote_never_pending (cfg : PermissionsConfig)
    (t : PermissionType) (action : String) (risk : RiskLevel)
    (params : Params) (st : GateState)
    (ht : t = PermissionType.NETWORK ∨ t = PermissionType.AI_REMOTE)
    (hen : permission_map cfg t = true) :
    check_permission cfg t action risk params st =
      ((true, none),
       { st with audit := st.audit ++
          [⟨action, t.value, risk.value, "granted", params, "system"⟩] }) := by
  have hask : ask_every_time_map cfg t = false := by
    rcases ht with h | h <;> subst h <;> rfl
  rw [check_permission, if_neg (by simp [hen]), if_neg (by simp [hask])]

/-- C10 witness: with the network category enabled, a network `check`
grants immediately with one `granted` audit entry and no pending
request. -/
theorem gate_network_airemote_never_pending_witness :
    check_permission cfg_network .NETWORK "network_request" .MEDIUM [] st0 =
      ((true, none),
       { st0 with audit := st0.audit ++
          [⟨"network_request", PermissionType.NETWORK.value, RiskLevel.MEDIUM.value,
            "granted", [], "system"⟩] }) :=
  gate_network_airemote_never_pending cfg_network .NETWORK "network_request"
    .MEDIUM [] st0 (Or.inl rfl) rfl

/-- C4: every command yields a plan with at least one step; a command
matching no intent pattern yields intent `unknown`, confidence `0`, and a
plan holding exactly the single synthetic unknown step. -/
theorem planner_create_plan_nonempty_unknown (command : String) :
    (create_plan command).steps ≠ []
    ∧ ((∀ entry ∈ intent_patterns, ∀ pc ∈ entry.2,
          matchAB pc.1.1 pc.1.2 (pyLower command).data = false) →
        (create_plan command).intent = "unknown"
        ∧ (create_plan command).confidence = 0
        ∧ (create_plan command).steps = [unknown_step command]) := by
  constructor
  · rw [create_plan]
    dsimp only
    split
    · simp
    · rename_i h
      intro hc
      rw [hc] at h
      simp at h
  · intro h
    have hp := parse_intent_of_no_match command h
    simp [create_plan, hp, build_steps_unknown]

/-- C4 witness: `zzz` matches no pattern; its plan is the single unknown
step with intent `unknown`. -/
theorem planner_create_plan_nonempty_unknown_witness :
    (create_plan "zzz").intent = "unknown"
    ∧ (create_plan "zzz").confidence = 0
    ∧ (create_plan "zzz").steps = [unknown_step "zzz"]
    ∧ (create_plan "zzz").steps ≠ [] := by
  have h := planner_create_plan_nonempty_unknown "zzz"
  have h2 := h.2 (by decide)
  exact ⟨h2.1, h2.2.1, h2.2.2, h.1⟩

/-- C5 counterexample: `step_dup_b`'s `(tool, action, params)` triple
differs from `step_dup_a`'s, yet `optimize` removes it, because the joined
key `tool ++ "." ++ action ++ "." ++ str(params)` collides
(`"a" / "b.c"` versus `"a.b" / "c"` both give `"a.b.c.\x7b\x7d"`). -/
theorem optimize_plan_triple_counterexample :
    (optimize_plan plan_dup).steps = [step_dup_a]
    ∧ (step_dup_b.tool, step_dup_b.action, step_dup_b.params)
        ≠ (step_dup_a.tool, step_dup_a.action, step_dup_a.params) := by
  exact ⟨rfl, by decide⟩

/-- C5 amended: `optimize` removes a step precisely when some earlier step
has the same deduplication key `tool ++ "." ++ action ++ "." ++
str(params)` — which coincides with the (tool, action, serialized params)
triple criterion whenever tool and action names contain no `"."` — keeping
first occurrences at their original positions (`keepFirstOccs` is the
spec-side statement of exactly that removal rule). -/
theorem optimize_plan_key_dedup (plan : ExecutionPlan) :
    (optimize_plan plan).steps = keepFirstOccs plan.steps := by
  rw [optimize_plan_eq]

/-- C6: `optimize` is idempotent, and the surviving steps are a sublist of
the original steps (original relative order) with pairwise-distinct
deduplication keys, every original step's key being represented — i.e.
only the first occurrence of each duplicate group survives. -/
theorem optimize_plan_idempotent (plan : ExecutionPlan) :
    optimize_plan (optimize_plan plan) = optimize_plan plan
    ∧ (optimize_plan plan).steps.Sublist plan.steps
    ∧ (optimize_plan plan).steps.Pairwise (fun a b => step_key a ≠ step_key b)
    ∧ ∀ s ∈ plan.steps, ∃ t ∈ (optimize_plan plan).steps, step_key t = step_key s := by
  refine ⟨?_, ?_, ?_, ?_⟩
  · rw [optimize_plan_eq plan,
        optimize_plan_eq ⟨plan.intent, keepFirstOccs plan.steps, plan.confidence,
          plan.requires_confirmation⟩]
    dsimp only
    rw [keepFirstOccs_idem]
  · rw [optimize_plan_eq plan]
    exact keepFirstOccs_sublist plan.steps
  · rw [optimize_plan_eq plan]
    exact keepFirstOccs_pairwise plan.steps
  · rw [optimize_plan_eq plan]
    exact keepFirstOccs_represents plan.steps

/-- C6 witness: on the concrete two-step plan, a second optimization pass
changes nothing, and the first step's key represents the group. -/
theorem optimize_plan_idempotent_witness :
    optimize_plan (optimize_plan plan_dup) = optimize_plan plan_dup
    ∧ ∃ t ∈ (optimize_plan plan_dup).steps, step_key t = step_key step_dup_a := by
  have h := optimize_plan_idempotent plan_dup
  exact ⟨h.1, h.2.2.2 step_dup_a (List.mem_cons_self step_dup_a [step_dup_b])⟩

/-- C9 counterexample: the command `delete file "test.txt"` matches no
intent pattern (the `delete_file` patterns require `file` before
`delete`, or the word `remove`), so the built plan is the unknown
fallback with `requires_confirmation = false` — not the claimed
single `file_actions`/`delete_file` step with confirmation. -/
theorem planner_delete_command_counterexample :
    (create_plan "delete file \"test.txt\"").intent = "unknown"
    ∧ (create_plan "delete file \"test.txt\"").steps.map PlanStep.tool = ["unknown"]
    ∧ (create_plan "delete file \"test.txt\"").requires_confirmation = false := by
  exact ⟨rfl, rfl, rfl⟩

/-- C9 amended: for the command `remove file "test.txt"` (which the
pattern table does recognize as `delete_file`), the built plan is exactly
one `file_actions`/`delete_file` step with `params.path = "test.txt"` and
`requires_confirmation = true`. -/
theorem planner_remove_command_plan :
    create_plan "remove file \"test.txt\"" =
      ⟨"delete_file",
       [⟨"file_actions", "delete_file", [("path", .s "test.txt")],
         "Delete file: test.txt"⟩],
       mkRat 85 100, true⟩ := by
  rfl

/-- C2: `execute` processes steps strictly in plan order (the `j`-th step
result carries step number `j + 1` and the `j`-th step's tool, action and
description); if the first critically-failing step sits after `pre`
failure-free-or-non-critical steps, exactly `pre.length + 1` step results
are produced; if no step both fails and is critical, all `N` steps produce
`N` results; and the overall success flag is `false` whenever some step
result records a failure. -/
theorem executor_execute_plan_order_failfast (env : ExecEnv)
    (plan : ExecutionPlan) (usage : List UsageRecord) :
    (∀ j, j < ((execute_plan env plan usage).1.step_results).length →
      ((execute_plan env plan usage).1.step_results)[j]?.map
          (fun sr => (sr.step_number, sr.tool, sr.action, sr.description))
        = plan.steps[j]?.map (fun s => (j + 1, s.tool, s.action, s.description)))
    ∧ (∀ pre s post, plan.steps = pre ++ s :: post →
        (∀ t ∈ pre, ¬((execute_step env t).success = false ∧ is_critical_step t = true)) →
        (execute_step env s).success = false → is_critical_step s = true →
        ((execute_plan env plan usage).1.step_results).length = pre.length + 1)
    ∧ ((∀ s ∈ plan.steps, ¬((execute_step env s).success = false ∧ is_critical_step s = true)) →
        ((execute_plan env plan usage).1.step_results).length = plan.steps.length)
    ∧ ((∃ sr ∈ (execute_plan env plan usage).1.step_results, sr.success = false) →
        (execute_plan env plan usage).1.success = false) := by
  have hres : (execute_plan env plan usage).1.step_results = (run_steps env 0 plan.steps).1 := rfl
  have hsucc : (execute_plan env plan usage).1.success = (run_steps env 0 plan.steps).2 := rfl
  refine ⟨?_, ?_, ?_, ?_⟩
  · intro j hj
    rw [hres] at hj ⊢
    have h := run_steps_order env plan.steps 0 j hj
    simpa using h
  · intro pre s post hsteps hpre hf hc
    rw [hres, hsteps]
    exact run_steps_critical_cut env pre s post 0 hpre hf hc
  · intro h
    rw [hres]
    exact run_steps_no_critical env plan.steps 0 h
  · intro hex
    rw [hsucc]
    rw [hres] at hex
    exact run_steps_failure_flag env plan.steps 0 hex

/-- C2 witness: a one-step plan whose critical `delete_file` step fails
(no tool registered) stops after exactly one step result. -/
theorem executor_execute_plan_order_failfast_witness :
    ((execute_plan env_empty plan_one_critical []).1.step_results).length = 1 :=
  (executor_execute_plan_order_failfast env_empty plan_one_critical []).2.1
    [] ⟨"file_actions", "delete_file", [], "Delete file: x"⟩ [] rfl
    (fun t ht => absurd ht (List.not_mem_nil t)) rfl rfl

/-- C7: `dryRun` is independent of the executor environment (no handler is
ever invoked), leaves the permission-gate state and the usage store
untouched (no `check`, no audit entry, no pending request, no usage
record), and reports a step count equal to the plan's number of steps. -/
theorem executor_dry_run_frame (env env2 : ExecEnv) (plan : ExecutionPlan)
    (st : GateState) (usage : List UsageRecord) :
    dry_run env plan st usage = dry_run env2 plan st usage
    ∧ (dry_run env plan st usage).2.1 = st
    ∧ (dry_run env plan st usage).2.2 = usage
    ∧ (dry_run env plan st usage).1.total_steps = plan.steps.length
    ∧ (dry_run env plan st usage).1.steps.length = plan.steps.length := by
  refine ⟨rfl, rfl, rfl, rfl, ?_⟩
  simp [dry_run, List.length_mapIdx]

/-- C8 counterexample: executing the plan built from the command
`desktop clean` writes a usage record whose `command` field is the plan's
intent label `organize_desktop`, not the command text. -/
theorem executor_usage_not_command_text :
    (execute_plan env_empty (create_plan "desktop clean") []).2 =
      [⟨"organize_desktop", "ExecutorAgent", false, 0, 1⟩]
    ∧ "organize_desktop" ≠ "desktop clean" := by
  exact ⟨rfl, by decide⟩

/-- C8 amended: every `execute` call appends exactly one usage record,
carrying the plan's intent label in the `command` field, the agent name
`ExecutorAgent`, the overall success flag, the total duration, and the
step-result count. -/
theorem executor_single_usage_record (env : ExecEnv) (plan : ExecutionPlan)
    (usage : List UsageRecord) :
    (execute_plan env plan usage).2 =
      usage ++ [⟨plan.intent, "ExecutorAgent",
        (execute_plan env plan usage).1.success,
        (execute_plan env plan usage).1.total_duration_ms,
        (execute_plan env plan usage).1.step_results.length⟩] := rfl

end Atlas
